import Mathlib

/-!
Verification development for the BringThemHome record-reconciliation scripts.

The definitions in this file are shallow embeddings of the Python source:

* `validate_date_format`, `validate_circumstances_category`, `validate_url`,
  `importRow` — cleanup_temp/validated_archive_import.py
* `extractRow` — cleanup_temp/comprehensive_data_extraction.py
* `archiveMatchUpdate` — cleanup_temp/properly_import_releases.py (lines 76-90)
* `checkRecord` — cleanup_temp/check_data_consistency.py
* `findBestMatch`, `forceHeldCount` — cleanup_temp/find_missing_names.py
* `addResearchIlanWeiss` — cleanup_temp/add_research_to_main.py (lines 20-24)

Pandas cells are modelled as `Option String` (`none` = NaN); Python's
`str(cell)` is `strField` (NaN prints as "nan").  Python's substring test
`needle in hay` is `pyInB`.  Python's `str.strip()` is `pyStrip` (Lean's
`Char.isWhitespace` covers the ASCII whitespace relevant to this data).
-/

/-- Digit test for a character, `48 ≤ code ≤ 57` (same as CPython `\d` on
ASCII input, which is all the regexes in the source are fed). -/
def isDigitCh (c : Char) : Bool := decide (48 ≤ c.toNat) && decide (c.toNat ≤ 57)

/-- Numeric value of a digit character. -/
def digitVal (c : Char) : Nat := c.toNat - 48

/-- The digit character for a value `0..9` (used to model `strftime` zero
padding). -/
def digitCh (n : Nat) : Char :=
  match n with
  | 0 => '0' | 1 => '1' | 2 => '2' | 3 => '3' | 4 => '4'
  | 5 => '5' | 6 => '6' | 7 => '7' | 8 => '8' | 9 => '9'
  | _ => '*'

/-- Value of a two-digit group. -/
def num2 (a b : Char) : Nat := 10 * digitVal a + digitVal b

/-- Value of a four-digit group. -/
def num4 (a b c d : Char) : Nat :=
  1000 * digitVal a + 100 * digitVal b + 10 * digitVal c + digitVal d

/-- Two-digit zero-padded rendering (strftime `%m` / `%d`). -/
def pad2 (n : Nat) : List Char := [digitCh (n / 10), digitCh (n % 10)]

/-- Four-digit zero-padded rendering (strftime `%Y`; glibc does not zero-pad
years below 1000, but every year this pipeline handles is four-digit, where
all platforms agree with the padded form). -/
def pad4 (n : Nat) : List Char :=
  [digitCh (n / 1000), digitCh (n / 100 % 10), digitCh (n / 10 % 10), digitCh (n % 10)]

/-- Python `str.strip()`. -/
def pyStrip (l : List Char) : List Char :=
  ((l.dropWhile Char.isWhitespace).reverse.dropWhile Char.isWhitespace).reverse

/-- Python `needle in hay` on strings (substring containment). -/
def pyInB (needle hay : String) : Bool := decide (needle.data <:+: hay.data)

/-- Python leap-year rule as used by `datetime` (proleptic Gregorian). -/
def isLeap (y : Nat) : Bool := y % 4 = 0 && (y % 100 ≠ 0 || y % 400 = 0)

/-- Days in a month, per `datetime`. -/
def daysInMonth (y m : Nat) : Nat :=
  if m = 2 then (if isLeap y then 29 else 28)
  else if m = 4 || m = 6 || m = 9 || m = 11 then 30
  else 31

/-- The validity check performed by the `datetime.datetime` constructor
(`MINYEAR = 1`, `MAXYEAR = 9999`). -/
def validYMD (y m d : Nat) : Bool :=
  decide (1 ≤ y) && decide (y ≤ 9999) && decide (1 ≤ m) && decide (m ≤ 12) &&
  decide (1 ≤ d) && decide (d ≤ daysInMonth y m)

/-- The regex `^\d{4}-\d{2}-\d{2}$` from `validate_date_format`. -/
def fastPathShape : List Char → Bool
  | [a, b, c, d, e, f, g, h, i, j] =>
    isDigitCh a && isDigitCh b && isDigitCh c && isDigitCh d && e = '-' &&
    isDigitCh f && isDigitCh g && h = '-' && isDigitCh i && isDigitCh j
  | _ => false

/-- `datetime.strptime(s, "%Y-%m-%d")` succeeding on a string that already
matched `fastPathShape`: with the 4-2-2 digit layout fixed, strptime succeeds
exactly when the `datetime` constructor accepts the three numbers. -/
def fastOk : List Char → Bool
  | [a, b, c, d, _, f, g, _, i, j] => validYMD (num4 a b c d) (num2 f g) (num2 i j)
  | _ => false

/-- CPython strptime `%Y`: exactly four digits. -/
def parseY4 : List Char → Option (Nat × List Char)
  | a :: b :: c :: d :: rest =>
    if isDigitCh a && isDigitCh b && isDigitCh c && isDigitCh d then
      some (num4 a b c d, rest)
    else none
  | _ => none

/-- CPython strptime `%m`, regex `1[0-2]|0[1-9]|[1-9]`.  In every format of
the source a literal separator (or end of the four-digit year) follows the
month, so the regex engine's backtracking from a two-digit to a one-digit
alternative can never rescue a parse: when a two-digit alternative matches,
the following character is a digit and the separator test fails for the
one-digit fallback as well.  The committed parser below therefore agrees
with the regex. -/
def parseM : List Char → Option (Nat × List Char)
  | a :: b :: rest =>
    if a = '1' && (b = '0' || b = '1' || b = '2') then some (10 + digitVal b, rest)
    else if a = '0' && isDigitCh b && b ≠ '0' then some (digitVal b, rest)
    else if isDigitCh a && a ≠ '0' then some (digitVal a, b :: rest)
    else none
  | [a] => if isDigitCh a && a ≠ '0' then some (digitVal a, []) else none
  | [] => none

/-- CPython strptime `%d`, regex `3[01]|[12]\d|0[1-9]|[1-9]` (same
backtracking remark as `parseM`). -/
def parseD : List Char → Option (Nat × List Char)
  | a :: b :: rest =>
    if a = '3' && (b = '0' || b = '1') then some (30 + digitVal b, rest)
    else if (a = '1' || a = '2') && isDigitCh b then some (num2 a b, rest)
    else if a = '0' && isDigitCh b && b ≠ '0' then some (digitVal b, rest)
    else if isDigitCh a && a ≠ '0' then some (digitVal a, b :: rest)
    else none
  | [a] => if isDigitCh a && a ≠ '0' then some (digitVal a, []) else none
  | [] => none

/-- A literal character of a strptime format. -/
def expectCh (c : Char) : List Char → Option (List Char)
  | x :: rest => if x = c then some rest else none
  | [] => none

/-- `datetime.strptime(s, "%d/%m/%Y")` followed by the `datetime`
constructor's validity check; returns `(year, month, day)`. -/
def parse_dmY_slash (l : List Char) : Option (Nat × Nat × Nat) :=
  match parseD l with
  | none => none
  | some (d, l1) =>
    match expectCh '/' l1 with
    | none => none
    | some l2 =>
      match parseM l2 with
      | none => none
      | some (m, l3) =>
        match expectCh '/' l3 with
        | none => none
        | some l4 =>
          match parseY4 l4 with
          | some (y, []) => if validYMD y m d then some (y, m, d) else none
          | _ => none

/-- `datetime.strptime(s, "%m/%d/%Y")` plus constructor validity. -/
def parse_mdY_slash (l : List Char) : Option (Nat × Nat × Nat) :=
  match parseM l with
  | none => none
  | some (m, l1) =>
    match expectCh '/' l1 with
    | none => none
    | some l2 =>
      match parseD l2 with
      | none => none
      | some (d, l3) =>
        match expectCh '/' l3 with
        | none => none
        | some l4 =>
          match parseY4 l4 with
          | some (y, []) => if validYMD y m d then some (y, m, d) else none
          | _ => none

/-- `datetime.strptime(s, "%Y/%m/%d")` plus constructor validity. -/
def parse_Ymd_slash (l : List Char) : Option (Nat × Nat × Nat) :=
  match parseY4 l with
  | none => none
  | some (y, l1) =>
    match expectCh '/' l1 with
    | none => none
    | some l2 =>
      match parseM l2 with
      | none => none
      | some (m, l3) =>
        match expectCh '/' l3 with
        | none => none
        | some l4 =>
          match parseD l4 with
          | some (d, []) => if validYMD y m d then some (y, m, d) else none
          | _ => none

/-- `datetime.strptime(s, "%d-%m-%Y")` plus constructor validity. -/
def parse_dmY_dash (l : List Char) : Option (Nat × Nat × Nat) :=
  match parseD l with
  | none => none
  | some (d, l1) =>
    match expectCh '-' l1 with
    | none => none
    | some l2 =>
      match parseM l2 with
      | none => none
      | some (m, l3) =>
        match expectCh '-' l3 with
        | none => none
        | some l4 =>
          match parseY4 l4 with
          | some (y, []) => if validYMD y m d then some (y, m, d) else none
          | _ => none

/-- `parsed.strftime("%Y-%m-%d")`. -/
def fmtYMD (y m d : Nat) : String :=
  String.mk (pad4 y ++ '-' :: (pad2 m ++ '-' :: pad2 d))

/-- `validate_date_format` of validated_archive_import.py: `none` models a
NaN cell.  The function first handles a string already shaped `\d{4}-\d{2}-\d{2}`
(returning it unchanged if strptime accepts it, `None` otherwise — note it
does not fall through to the other formats), then tries
`["%d/%m/%Y", "%m/%d/%Y", "%Y/%m/%d", "%d-%m-%Y"]` in order. -/
def validate_date_format (dateStr : Option String) : Option String :=
  match dateStr with
  | none => none
  | some s0 =>
    if s0 = "nan" then none
    else
      let t := pyStrip s0.data
      if t = [] then none
      else if fastPathShape t then
        (if fastOk t then some (String.mk t) else none)
      else
        match parse_dmY_slash t with
        | some (y, m, d) => some (fmtYMD y m d)
        | none =>
          match parse_mdY_slash t with
          | some (y, m, d) => some (fmtYMD y m d)
          | none =>
            match parse_Ymd_slash t with
            | some (y, m, d) => some (fmtYMD y m d)
            | none =>
              match parse_dmY_dash t with
              | some (y, m, d) => some (fmtYMD y m d)
              | none => none

/-- The fixed category enumeration of `validate_circumstances_category`. -/
def valid_categories : List String :=
  ["Returned in Deal",
   "Returned in Deal - Body",
   "Returned in Military Operation",
   "Returned in Military Operation - Body",
   "Died Before/During Kidnapping",
   "Died in Captivity - Unknown Circumstances",
   "Died in Captivity - Killed by IDF",
   "Died in Captivity - Hunger/Conditions",
   "Died in Captivity - Killed by Hamas",
   "Died in Captivity - Killed by Fleeing Hamas",
   "Died in Captivity - Unprovoked Execution"]

/-- The `mapping` dictionary of `validate_circumstances_category`
("fuzzy matching for common variations"); `Still in captivity` maps to
Python `None`, which `mapping.get` also returns for unknown keys. -/
def circumstances_mapping (s : String) : Option String :=
  if s = "Released via deal" then some "Returned in Deal"
  else if s = "Released in deal" then some "Returned in Deal"
  else if s = "Killed in captivity by captors" then some "Died in Captivity - Killed by Hamas"
  else if s = "Still in captivity" then none
  else if s = "Body returned in deal" then some "Returned in Deal - Body"
  else if s = "Military recovery" then some "Returned in Military Operation - Body"
  else none

/-- `validate_circumstances_category` of validated_archive_import.py. -/
def validate_circumstances_category (circumstancesStr : Option String) : Option String :=
  match circumstancesStr with
  | none => none
  | some s0 =>
    let t := String.mk (pyStrip s0.data)
    if t = "" then none
    else if t ∈ valid_categories then some t
    else circumstances_mapping t

/-- Characters CPython `urlparse` accepts inside a scheme. -/
def schemeChar (c : Char) : Bool := c.isAlpha || isDigitCh c || c = '+' || c = '-' || c = '.'

/-- Split a character list at its first `':'` (CPython `urlsplit` uses
`url.find(':')`). -/
def splitAtColon : List Char → Option (List Char × List Char)
  | [] => none
  | c :: rest =>
    if c = ':' then some ([], rest)
    else (splitAtColon rest).map (fun pq => (c :: pq.1, pq.2))

/-- `urlparse(url)` yields a non-empty `scheme` and a non-empty `netloc`:
there is a `':'` preceded by a valid non-empty scheme, the remainder starts
with `"//"`, and at least one character follows before a `/`, `?` or `#`. -/
def hasSchemeNetloc (l : List Char) : Bool :=
  match splitAtColon l with
  | none => false
  | some (pre, post) =>
    (match pre with
     | [] => false
     | c :: _ => c.isAlpha) &&
    pre.all schemeChar &&
    (match post with
     | '/' :: '/' :: rest =>
       (match rest with
        | [] => false
        | c :: _ => !(c = '/' || c = '?' || c = '#'))
     | _ => false)

/-- After the host part: the regexes `^https?://[^/]+/?$` and
`^https?://[^/]+/#?$` allow nothing, a bare `/`, or `/#`. -/
def genericAfterHost : List Char → Bool
  | [] => true
  | ['/'] => true
  | ['/', '#'] => true
  | '/' :: _ => false
  | _ :: rest => genericAfterHost rest

/-- The part after `http://` / `https://`: at least one non-`/` character,
then `genericAfterHost`. -/
def genericHost : List Char → Bool
  | [] => false
  | '/' :: _ => false
  | _ :: rest => genericAfterHost rest

/-- The two "generic domain" patterns of `validate_url`. -/
def isGenericUrl (l : List Char) : Bool :=
  match l with
  | 'h' :: 't' :: 't' :: 'p' :: 's' :: ':' :: '/' :: '/' :: rest => genericHost rest
  | 'h' :: 't' :: 't' :: 'p' :: ':' :: '/' :: '/' :: rest => genericHost rest
  | _ => false

/-- `validate_url` of validated_archive_import.py, on the string URLs that
the import loop feeds it. -/
def validate_url (url : String) : Bool :=
  let t := pyStrip url.data
  if t = [] then false
  else hasSchemeNetloc t && !(isGenericUrl t)

/-- Python `archive_citations.split(';')` (keeps empty pieces). -/
def splitSemiAux : List Char → List Char → List (List Char)
  | [], acc => [acc.reverse]
  | ';' :: rest, acc => acc.reverse :: splitSemiAux rest []
  | c :: rest, acc => splitSemiAux rest (c :: acc)

/-- Split a string at every `';'`. -/
def splitSemi (l : List Char) : List (List Char) := splitSemiAux l []

/-- Python `'; '.join(urls)`. -/
def joinSemi : List (List Char) → List Char
  | [] => []
  | [u] => u
  | u :: rest => u ++ ';' :: ' ' :: joinSemi rest

/-- The `new_urls` accumulation of the citation expansion (lines 183-190):
each `';'` piece is stripped, and kept when `validate_url` accepts it and it
is not already a substring of the current citation cell. -/
def collectNewUrls (cur : List Char) (pieces : List (List Char)) : List (List Char) :=
  pieces.filter (fun u => validate_url (String.mk u) && !(decide (u <:+: cur)))

/-- The citation entry of `import_data` (lines 177-196): `some` a new cell
value when `new_urls` is non-empty, `none` when the cell is left alone.
`cur` and `archive` are `str(...)` of the two cells. -/
def mergeCitations (cur archive : List Char) : Option (List Char) :=
  if archive ≠ [] ∧ archive ≠ "nan".data then
    let newUrls := collectNewUrls cur ((splitSemi archive).map pyStrip)
    if newUrls = [] then none
    else if cur ≠ [] ∧ cur ≠ "nan".data then some (cur ++ ';' :: ' ' :: joinSemi newUrls)
    else some (joinSemi newUrls)
  else none

/-- One row of the canonical store `hostages-from-kan.csv`.  Cells are
`Option String`, `none` modelling a pandas NaN. -/
structure Record where
  hebrewName : String
  currentStatus : String
  dateOfDeath : Option String
  contextOfDeath : Option String
  releaseDate : Option String
  releaseCircumstances : Option String
  citationUrls : Option String
  countriesInvolved : Option String
  hebrewDescShort : Option String
  hebrewDescLong : Option String
  kidnappingSummary : Option String
deriving DecidableEq

/-- One row of the archive CSV `hostages-list-complete-final.csv`. -/
structure ArchiveRow where
  hebrewName : String
  hostageName : Option String
  dateOfDeath : Option String
  releaseDate : Option String
  contextOfDeath : Option String
  releaseCircumstances : Option String
  citationUrls : Option String
  countriesInvolved : Option String
deriving DecidableEq

/-- Python `str(cell)`: a NaN cell prints as `"nan"`. -/
def strField (f : Option String) : String :=
  match f with
  | none => "nan"
  | some s => s

/-- The emptiness guard of validated_archive_import.py:
`pd.isna(x) or str(x) == 'nan'`. -/
def isEmptyField (f : Option String) : Bool :=
  match f with
  | none => true
  | some s => s = "nan"

/-- `archive_df[archive_df['Hebrew Name'] == hebrew_name]` (row order kept). -/
def findArchiveMatches (archive : List ArchiveRow) (hebrewName : String) : List ArchiveRow :=
  archive.filter (fun a => a.hebrewName = hebrewName)

/-- One `import_data` proposal applied to a cell: the dict holds at most one
value per field, written over the cell at the end of the loop body. -/
def updField (cur proposal : Option String) : Option String :=
  match proposal with
  | some v => some v
  | none => cur

/-- The `Countries Involved in Deals` proposal (lines 198-202), applied
when `pd.notna(countries) and str(countries).strip() and
str(countries) != 'nan'`. -/
def countriesProposal (countries : Option String) : Option String :=
  match countries with
  | none => none
  | some c => if pyStrip c.data ≠ [] ∧ c ≠ "nan" then some (String.mk (pyStrip c.data)) else none

/-- The body of the import loop of validated_archive_import.py
(lines 138-216) once a matching archive row is fixed: `import_data` proposes
each guarded field only when the current cell is empty and the proposed value
validates; citations are expanded additively.  Each `import_data` key is
written exactly once, so the dict is collapsed to one `updField` per field. -/
def importWithArchiveRow (a : ArchiveRow) (r : Record) : Record :=
  { r with
    dateOfDeath := updField r.dateOfDeath
      (if isEmptyField r.dateOfDeath then validate_date_format a.dateOfDeath else none),
    releaseDate := updField r.releaseDate
      (if isEmptyField r.releaseDate then validate_date_format a.releaseDate else none),
    contextOfDeath := updField r.contextOfDeath
      (if isEmptyField r.contextOfDeath then validate_circumstances_category a.contextOfDeath
       else none),
    releaseCircumstances := updField r.releaseCircumstances
      (if isEmptyField r.releaseCircumstances then
        validate_circumstances_category a.releaseCircumstances
       else none),
    citationUrls := updField r.citationUrls
      ((mergeCitations (strField r.citationUrls).data (strField a.citationUrls).data).map
        String.mk),
    countriesInvolved := updField r.countriesInvolved
      (if isEmptyField r.countriesInvolved then countriesProposal a.countriesInvolved else none) }

/-- The import loop of validated_archive_import.py (lines 127-216) for one
canonical row: find the archive rows with the same Hebrew name, take the
first (`archive_matches.iloc[0]`), and apply its `import_data`. -/
def importRow (archive : List ArchiveRow) (r : Record) : Record :=
  match findArchiveMatches archive r.hebrewName with
  | [] => r
  | a :: _ => importWithArchiveRow a r

/-- A blank canonical row used to build concrete test records. -/
def blankRecord : Record :=
  { hebrewName := ""
    currentStatus := "Unknown"
    dateOfDeath := none
    contextOfDeath := none
    releaseDate := none
    releaseCircumstances := none
    citationUrls := none
    countriesInvolved := none
    hebrewDescShort := none
    hebrewDescLong := none
    kidnappingSummary := none }

/-- A blank archive row used to build concrete test rows. -/
def blankArchiveRow : ArchiveRow :=
  { hebrewName := ""
    hostageName := none
    dateOfDeath := none
    releaseDate := none
    contextOfDeath := none
    releaseCircumstances := none
    citationUrls := none
    countriesInvolved := none }

/-- The `date_patterns` dictionary of comprehensive_data_extraction.py
(insertion order = iteration order). -/
def releaseDatePatterns : List (String × String) :=
  [("ב-29.8.25", "2025-08-29"), ("ב-22.6.25", "2025-06-22"), ("ב-11.06.25", "2025-06-11"),
   ("ב-07.06.25", "2025-06-07"), ("ב-05.06.25", "2025-06-05"), ("ב-27.2.25", "2025-02-27"),
   ("ב-19.1.25", "2025-01-19"), ("ב-8.1.25", "2025-01-08"), ("ב-4.12.24", "2024-12-04"),
   ("ב-31.8.24", "2024-08-31"), ("ב-20.8.24", "2024-08-20"), ("ב-24.07.24", "2024-07-24"),
   ("ב-24.7.24", "2024-07-24")]

/-- First release-date pattern found in the combined Hebrew text (the loop
`for pattern, date in date_patterns.items(): ... break`). -/
def findFirstPattern (fullText : String) : List (String × String) → Option String
  | [] => none
  | (p, d) :: rest => if pyInB p fullText then some d else findFirstPattern fullText rest

/-- The per-row body of comprehensive_data_extraction.py (lines 13-105).
All guards read the `row` snapshot; `updated` is a single per-row flag, so a
death-date or death-context hit on this pass suppresses the release-phrase
block (`if not updated:`) for the same pass.  The circumstances block can
also flip an `Unknown` status to `Released`. -/
def extractRow (r : Record) : Record :=
  let fullText := strField r.hebrewDescShort ++ " " ++ strField r.hebrewDescLong ++ " " ++
    strField r.kidnappingSummary
  let deathRes : Option String :=
    if r.dateOfDeath = none then
      if pyInB "ב-7 באוקטובר" fullText || pyInB "נרצח ב-7.10" fullText ||
          pyInB "נרצחה ב-7.10" fullText || pyInB "נפל ב-7.10" fullText then
        some "2023-10-07"
      else if pyInB "2014" fullText && pyInB "נפל במבצע" fullText then some "2014-07-20"
      else none
    else none
  let ctxRes : Option String :=
    if r.contextOfDeath = none then
      if pyInB "נרצח בשבי" fullText || pyInB "נרצחה בשבי" fullText then
        some "Died in Captivity - Killed by Hamas"
      else if pyInB "נרצח ב-7 באוקטובר" fullText || pyInB "נרצחה ב-7 באוקטובר" fullText ||
          pyInB "נפל בקרב ב-7" fullText || pyInB "נהרג בקרב ב-7" fullText then
        some "Died Before/During Kidnapping"
      else if pyInB "נפל במבצע" fullText || pyInB "נפל ונחטף" fullText then
        some "Died Before/During Kidnapping"
      else none
    else none
  let updatedSoFar := deathRes.isSome || ctxRes.isSome
  let relRes : Option String :=
    if r.releaseDate = none then
      match findFirstPattern fullText releaseDatePatterns with
      | some d => some d
      | none =>
        if updatedSoFar then none
        else if pyInB "נובמבר 2023" fullText || pyInB "אחרי 49 יום" fullText then some "2023-11-24"
        else if pyInB "אחרי 55 יום" fullText then some "2023-12-01"
        else if pyInB "אחרי 246 ימים" fullText then some "2024-06-08"
        else none
    else none
  let circStatus : Option (String × Option String) :=
    if r.releaseCircumstances = none then
      if r.currentStatus = "Deceased - Returned" then
        some ("Returned in Military Operation - Body", none)
      else if r.currentStatus = "Released" then
        (if pyInB "עסקה" fullText || pyInB "שחרור" fullText then some ("Released via deal", none)
         else some ("Returned in Deal", none))
      else if pyInB "שוחרר" fullText || pyInB "שוחררה" fullText then
        some ("Returned in Deal", if r.currentStatus = "Unknown" then some "Released" else none)
      else if pyInB "חולץ" fullText || pyInB "חולצה" fullText then
        some ("Returned in Military Operation",
          if r.currentStatus = "Unknown" then some "Released" else none)
      else if pyInB "גופתו הושבה" fullText || pyInB "גופתה הושבה" fullText then
        some ("Returned in Military Operation - Body", none)
      else none
    else none
  { r with
    dateOfDeath := updField r.dateOfDeath deathRes,
    contextOfDeath := updField r.contextOfDeath ctxRes,
    releaseDate := updField r.releaseDate relRes,
    releaseCircumstances :=
      match circStatus with
      | some (v, _) => some v
      | none => r.releaseCircumstances,
    currentStatus :=
      match circStatus with
      | some (_, some st) => st
      | _ => r.currentStatus }

/-- The matched-record update of properly_import_releases.py (lines 76-90):
once an archive release row is matched to a canonical row, `Current Status`,
`Release Date` and `Release/Death Circumstances` are assigned
unconditionally, and archive citations are appended. -/
def archiveMatchUpdate (r : Record) (a : ArchiveRow) : Record :=
  let r1 := { r with
    currentStatus := "Released",
    releaseDate := a.releaseDate,
    releaseCircumstances := a.releaseCircumstances }
  let archiveCitations := strField a.citationUrls
  if archiveCitations ≠ "" ∧ archiveCitations ≠ "nan" then
    let currentCitations := strField r.citationUrls
    if currentCitations ≠ "" ∧ currentCitations ≠ "nan" then
      { r1 with citationUrls := some (currentCitations ++ "; " ++ archiveCitations) }
    else
      { r1 with citationUrls := some archiveCitations }
  else r1

/-- The per-row inconsistency scan of check_data_consistency.py
(lines 14-58), returning the `issues` list for the row. -/
def checkRecord (r : Record) : List String :=
  let release_date := strField r.releaseDate
  let release_circumstances := strField r.releaseCircumstances
  let death_context := strField r.contextOfDeath
  if r.currentStatus = "Released" then
    (if release_date = "nan" ∨ release_date = "" then ["Released but no release date"] else []) ++
    (if release_circumstances = "nan" ∨ release_circumstances = "" then
      ["Released but no release circumstances"] else [])
  else if r.currentStatus = "Held in Gaza" then
    (if ¬(release_date = "nan" ∨ release_date = "") then
      ["Held in Gaza but has release date"] else []) ++
    (if pyInB "Released" release_circumstances ∨ pyInB "Returned" release_circumstances then
      ["Held in Gaza but has release circumstances"] else [])
  else if r.currentStatus = "Deceased" then
    (if death_context = "nan" ∨ death_context = "" then ["Deceased but no death context"] else [])
  else if r.currentStatus = "Deceased - Returned" then
    (if death_context = "nan" ∨ death_context = "" then
      ["Deceased-Returned but no death context"] else []) ++
    (if release_date = "nan" ∨ release_date = "" then
      ["Deceased-Returned but no return date"] else [])
  else []

/-- Python `str.split()` — split on whitespace runs, dropping empties. -/
def splitWsAux : List Char → List Char → List (List Char)
  | [], acc => if acc = [] then [] else [acc.reverse]
  | c :: rest, acc =>
    if c.isWhitespace then
      (if acc = [] then splitWsAux rest [] else acc.reverse :: splitWsAux rest [])
    else splitWsAux rest (c :: acc)

/-- Python `missing_name.split()`. -/
def splitWs (l : List Char) : List (List Char) := splitWsAux l []

/-- The fuzzy score of find_missing_names.py (lines 48-56): the sum of
`len(part)` over name parts of length > 1 contained in the CSV name, plus 2
when the two names' lengths differ by less than 3. -/
def scoreName (parts : List (List Char)) (missingName csvName : List Char) : Nat :=
  (parts.foldl
    (fun acc part => if part.length > 1 ∧ part <:+: csvName then acc + part.length else acc) 0) +
  (if csvName.length ≤ missingName.length + 2 ∧ missingName.length ≤ csvName.length + 2 then 2
   else 0)

/-- The best-match scan of find_missing_names.py (lines 41-60): rows already
`Held in Gaza` are skipped; a row becomes the new best exactly when its score
strictly exceeds the best so far and reaches the minimum threshold 3 — so
among equally-scored candidates the earliest row wins and is returned,
without any ambiguity report. -/
def findBestMatchAux (parts : List (List Char)) (missingName : List Char) :
    List Record → Nat → Option Nat → Nat → Option Nat
  | [], _, best, _ => best
  | r :: rest, i, best, bestScore =>
    if r.currentStatus = "Held in Gaza" then
      findBestMatchAux parts missingName rest (i + 1) best bestScore
    else
      let score := scoreName parts missingName r.hebrewName.data
      if bestScore < score ∧ 3 ≤ score then
        findBestMatchAux parts missingName rest (i + 1) (some i) score
      else
        findBestMatchAux parts missingName rest (i + 1) best bestScore

/-- `best_match` for one missing name over the whole table. -/
def findBestMatch (recs : List Record) (missingName : String) : Option Nat :=
  findBestMatchAux (splitWs missingName.data) missingName.data recs 0 none 0

/-- The conversion applied to a fuzzy-matched or target-count row of
find_missing_names.py (lines 80-82 and 108-110). -/
def convertToHeld (r : Record) : Record :=
  { r with
    currentStatus := "Held in Gaza"
    releaseCircumstances := some "Currently Held Captive"
    releaseDate := some "" }

/-- The candidate filter of find_missing_names.py (lines 100-103): status
`Released` or `Unknown` and an absent or empty release date. -/
def isConversionCandidate (r : Record) : Bool :=
  decide (r.currentStatus = "Released" ∨ r.currentStatus = "Unknown") &&
  decide (r.releaseDate = none ∨ r.releaseDate = some "")

/-- Number of rows currently `Held in Gaza`. -/
def heldCount (recs : List Record) : Nat :=
  recs.countP (fun r => r.currentStatus = "Held in Gaza")

/-- Number of conversion candidates. -/
def candidateCount (recs : List Record) : Nat := recs.countP isConversionCandidate

/-- The target-count loop of find_missing_names.py (lines 105-110): convert
the first `min(remaining_needed, len(candidates))` candidate rows, in row
order, to `Held in Gaza`. -/
def forceHeldCount : Nat → List Record → List Record
  | _, [] => []
  | 0, recs => recs
  | n + 1, r :: rest =>
    if isConversionCandidate r then convertToHeld r :: forceHeldCount n rest
    else r :: forceHeldCount (n + 1) rest

/-- The single-record update of add_research_to_main.py (lines 20-24): every
field, including `Citation URLs`, is assigned a fixed researched value —
the citation cell is replaced, not extended (the script itself prints
"The information has been ADDED to existing columns, not replaced"). -/
def addResearchIlanWeiss (r : Record) : Record :=
  { r with
    dateOfDeath := some "2023-10-07"
    contextOfDeath := some "Died Before/During Kidnapping"
    releaseDate := some "2025-08-29"
    releaseCircumstances := some "Returned in Military Operation - Body"
    citationUrls := some "https://www.kan.org.il/content/kan-news/defense/946446/; https://www.jpost.com/israel-news/article-865713" }

/-- Modelled from the spec: the earliest possible kidnapping date named by
the spec's "plausible historical window" (October 7, 2023); no such window
appears anywhere in the source. -/
def specEarliestKidnappingDate : String := "2023-10-07"

/-! ## Concrete records used by the claim theorems -/

/-- A record whose `Release Date` is already populated, as
properly_import_releases.py may encounter it. -/
def heldWithReleaseDate : Record :=
  { blankRecord with
    hebrewName := "פלוני"
    currentStatus := "Held in Gaza"
    releaseDate := some "2023-11-01" }

/-- An archive release row proposing different release data. -/
def archiveReleaseRow : ArchiveRow :=
  { blankArchiveRow with
    hebrewName := "פלוני"
    releaseDate := some "2025-01-19"
    releaseCircumstances := some "Returned in Deal" }

/-- The Ilan Weiss row before add_research_to_main.py runs, carrying an
earlier citation. -/
def ilanWeissBefore : Record :=
  { blankRecord with
    hebrewName := "אילן וייס"
    currentStatus := "Deceased"
    citationUrls := some "https://old.example.org/original-source" }

/-- First of two archive rows sharing one key. -/
def dupKeyRow1 : ArchiveRow :=
  { blankArchiveRow with hebrewName := "כפול", releaseDate := some "19/01/2025" }

/-- Second of two archive rows sharing one key. -/
def dupKeyRow2 : ArchiveRow :=
  { blankArchiveRow with hebrewName := "כפול", releaseDate := some "02/02/2025" }

/-- The canonical record whose key the duplicate archive rows carry. -/
def dupKeyRecord : Record :=
  { blankRecord with hebrewName := "כפול", currentStatus := "Held in Gaza" }

/-- A held row for building a concrete store. -/
def heldExample : Record := { blankRecord with currentStatus := "Held in Gaza" }

/-- A concrete store with 46 held rows and one candidate row. -/
def c9Store : List Record := List.replicate 46 heldExample ++ [blankRecord]

/-- Two rows whose names tie under the fuzzy score. -/
def tieRowA : Record := { blankRecord with hebrewName := "אבגד", currentStatus := "Released" }

/-- The second equally-scored row. -/
def tieRowB : Record := { blankRecord with hebrewName := "גדאב", currentStatus := "Released" }

/-- A held record with no release data yet. -/
def heldNoData : Record :=
  { blankRecord with hebrewName := "מוחזק", currentStatus := "Held in Gaza" }

/-- An archive row proposing a release date for the held record's key. -/
def archiveDateRow : ArchiveRow :=
  { blankArchiveRow with hebrewName := "מוחזק", releaseDate := some "2024-06-08" }

/-- A string is a valid calendar date normalized as `YYYY-MM-DD`. -/
def dateOk (l : List Char) : Bool := fastPathShape l && fastOk l

/-- Byte-wise lexicographic strict order on character lists; on `YYYY-MM-DD`
strings this is chronological order. -/
def listLtB : List Char → List Char → Bool
  | [], [] => false
  | [], _ :: _ => true
  | _ :: _, [] => false
  | a :: as, b :: bs =>
    if a.toNat < b.toNat then true
    else if b.toNat < a.toNat then false
    else listLtB as bs

/-- A record on which the extraction's second pass differs from the first:
the death-date pattern fires on pass one (setting `updated`), which
suppresses the release-phrase block of the same pass; pass two then fills
the release date. -/
def extractTwiceExample : Record :=
  { blankRecord with
    hebrewName := "דוגמה"
    currentStatus := "Unknown"
    releaseCircumstances := some "Currently Held Captive"
    kidnappingSummary := some "נחטף ב-7 באוקטובר ושוחרר אחרי 49 יום" }

/-! ## Claim theorems -/

/-! ## C7 — category validation -/

/-- C7 counterexample: `"Released via deal"` is not in the fixed category
enumeration, yet `validate_circumstances_category` accepts it (coercing it to
`"Returned in Deal"`) instead of returning `None`. -/
theorem c7_counterexample :
    validate_circumstances_category (some "Released via deal") = some "Returned in Deal" ∧
    "Released via deal" ∉ valid_categories := by decide

/-- C7 (amended): a proposed circumstances value is accepted only if its
stripped form is one of the fixed categories or one of the five hard-coded
alias strings, which are coerced to a category — so every accepted value lies
in the enumeration; truly free-form strings are rejected (`None`). -/
theorem c7_amended :
    (∀ (s : Option String) (c : String),
      validate_circumstances_category s = some c → c ∈ valid_categories) ∧
    validate_circumstances_category (some "Released via deal") = some "Returned in Deal" ∧
    validate_circumstances_category (some "This is some free text") = none := by
  refine ⟨?_, by decide, by decide⟩
  intro s c h
  match s with
  | none => simp [validate_circumstances_category] at h
  | some s0 =>
    unfold validate_circumstances_category at h
    simp only at h
    split_ifs at h with h1 h2
    · rw [Option.some.injEq] at h
      subst h
      exact h2
    · unfold circumstances_mapping at h
      split_ifs at h <;> simp at h <;> subst h <;> decide

/-- C7 witness: the soundness implication of `c7_amended` applied at a
concrete accepted value. -/
theorem c7_amended_witness : "Returned in Deal" ∈ valid_categories :=
  c7_amended.1 (some "Released via deal") "Returned in Deal" (by decide)

/-! ## C6 — append-only citations -/

set_option maxRecDepth 4000 in
/-- C6 (code bug evaluation): add_research_to_main.py replaces the
`Citation URLs` cell of the Ilan Weiss record with a fixed two-URL string;
a citation present before the update is no longer contained in the cell
afterwards, although the script's own output claims the information was
"ADDED to existing columns, not replaced". -/
theorem c6_citation_overwrite_eval :
    (addResearchIlanWeiss ilanWeissBefore).citationUrls =
      some "https://www.kan.org.il/content/kan-news/defense/946446/; https://www.jpost.com/israel-news/article-865713" ∧
    pyInB "https://old.example.org/original-source"
      (strField ilanWeissBefore.citationUrls) = true ∧
    pyInB "https://old.example.org/original-source"
      (strField (addResearchIlanWeiss ilanWeissBefore).citationUrls) = false := by decide

/-! ## C1 — non-overwrite invariant -/

/-- C1 counterexample: the archive-match update of properly_import_releases.py
replaces a `Release Date` that was already non-empty (and rewrites the status),
so the claimed invariant fails for this merge/import operation. -/
theorem c1_counterexample :
    isEmptyField heldWithReleaseDate.releaseDate = false ∧
    (archiveMatchUpdate heldWithReleaseDate archiveReleaseRow).releaseDate = some "2025-01-19" ∧
    (archiveMatchUpdate heldWithReleaseDate archiveReleaseRow).releaseDate ≠
      heldWithReleaseDate.releaseDate ∧
    (archiveMatchUpdate heldWithReleaseDate archiveReleaseRow).currentStatus ≠
      heldWithReleaseDate.currentStatus := by decide

/-- C1 (amended): the validated archive import (validated_archive_import.py)
does obey the non-overwrite policy — every guarded field that is non-empty
before `importRow` keeps its exact value, and the status and name are never
touched; but properly_import_releases.py overwrites populated status/release
fields unconditionally on an archive match (see the counterexample), so the
invariant does not hold for every merge/import operation of the repository. -/
theorem c1_nonoverwrite_import (archive : List ArchiveRow) (r : Record) :
    (isEmptyField r.dateOfDeath = false → (importRow archive r).dateOfDeath = r.dateOfDeath) ∧
    (isEmptyField r.releaseDate = false → (importRow archive r).releaseDate = r.releaseDate) ∧
    (isEmptyField r.contextOfDeath = false →
      (importRow archive r).contextOfDeath = r.contextOfDeath) ∧
    (isEmptyField r.releaseCircumstances = false →
      (importRow archive r).releaseCircumstances = r.releaseCircumstances) ∧
    (isEmptyField r.countriesInvolved = false →
      (importRow archive r).countriesInvolved = r.countriesInvolved) ∧
    (importRow archive r).currentStatus = r.currentStatus ∧
    (importRow archive r).hebrewName = r.hebrewName := by
  unfold importRow
  cases findArchiveMatches archive r.hebrewName with
  | nil => simp
  | cons a rest =>
    refine ⟨?_, ?_, ?_, ?_, ?_, ?_, ?_⟩ <;>
      first
      | (intro h; simp [importWithArchiveRow, h, updField])
      | simp [importWithArchiveRow, updField]

/-- C1 witness: `c1_nonoverwrite_import` at a record whose date and status
fields are populated, with the guards discharged concretely. -/
theorem c1_nonoverwrite_import_witness :
    (importRow [archiveReleaseRow] heldWithReleaseDate).releaseDate =
      heldWithReleaseDate.releaseDate ∧
    (importRow [archiveReleaseRow] heldWithReleaseDate).currentStatus =
      heldWithReleaseDate.currentStatus :=
  ⟨(c1_nonoverwrite_import [archiveReleaseRow] heldWithReleaseDate).2.1 (by decide),
   (c1_nonoverwrite_import [archiveReleaseRow] heldWithReleaseDate).2.2.2.2.2.1⟩

/-! ## C8 — loader duplicate keys -/

/-- C8 counterexample: an archive table with two rows carrying the same key
is processed without any failure; the import silently uses the first
duplicate row (`archive_matches.iloc[0]`) — no `LoadError` exists anywhere
in the source. -/
theorem c8_counterexample :
    (findArchiveMatches [dupKeyRow1, dupKeyRow2] dupKeyRecord.hebrewName).length = 2 ∧
    dupKeyRow1.releaseDate ≠ dupKeyRow2.releaseDate ∧
    (importRow [dupKeyRow1, dupKeyRow2] dupKeyRecord).releaseDate = some "2025-01-19" := by decide

/-- C8 (amended): no duplicate-key validation is performed; when several
archive rows share a record's key, the import behaves exactly as if only the
first matching row existed. -/
theorem c8_first_match_wins (a₁ a₂ : ArchiveRow) (rest : List ArchiveRow) (r : Record)
    (h : a₁.hebrewName = r.hebrewName) :
    importRow (a₁ :: a₂ :: rest) r = importRow [a₁] r := by
  have h1 : findArchiveMatches (a₁ :: a₂ :: rest) r.hebrewName =
      a₁ :: findArchiveMatches (a₂ :: rest) r.hebrewName := by
    simp [findArchiveMatches, List.filter_cons, h]
  have h2 : findArchiveMatches [a₁] r.hebrewName = [a₁] := by
    simp [findArchiveMatches, List.filter_cons, h]
  unfold importRow
  rw [h1, h2]

/-- C8 witness: `c8_first_match_wins` at the concrete duplicate-keyed
archive. -/
theorem c8_first_match_wins_witness :
    importRow [dupKeyRow1, dupKeyRow2] dupKeyRecord = importRow [dupKeyRow1] dupKeyRecord :=
  c8_first_match_wins dupKeyRow1 dupKeyRow2 [] dupKeyRecord (by decide)

/-! ## C9 — target-count status forcing -/

/-- A conversion candidate is not already held: its status is `Released` or
`Unknown`. -/
theorem candidate_not_held (r : Record) (h : isConversionCandidate r = true) :
    r.currentStatus ≠ "Held in Gaza" := by
  unfold isConversionCandidate at h
  rw [Bool.and_eq_true, decide_eq_true_iff, decide_eq_true_iff] at h
  rcases h.1 with h1 | h1 <;> rw [h1] <;> decide

/-- Converting `n` candidates (with `n` within the candidate count) raises
the held count by exactly `n`. -/
theorem heldCount_forceHeldCount (recs : List Record) :
    ∀ n : Nat, n ≤ candidateCount recs →
      heldCount (forceHeldCount n recs) = heldCount recs + n := by
  induction recs with
  | nil =>
    intro n hn
    simp [candidateCount] at hn
    simp [hn, forceHeldCount, heldCount]
  | cons r rest ih =>
    intro n hn
    cases n with
    | zero => simp [forceHeldCount]
    | succ n =>
      by_cases hc : isConversionCandidate r = true
      · have hheld : decide (r.currentStatus = "Held in Gaza") = false := by
          simp [candidate_not_held r hc]
        have hcand : candidateCount (r :: rest) = candidateCount rest + 1 := by
          simp [candidateCount, List.countP_cons, hc]
        have hn2 : n ≤ candidateCount rest := by omega
        have hrec := ih n hn2
        simp only [forceHeldCount]
        rw [if_pos hc]
        have hconv : decide ((convertToHeld r).currentStatus = "Held in Gaza") = true := by
          simp [convertToHeld]
        simp only [heldCount, List.countP_cons] at hrec ⊢
        rw [hconv, hheld, hrec]
        simp
        omega
      · have hc2 : isConversionCandidate r = false := by
          simpa using hc
        have hcand : candidateCount (r :: rest) = candidateCount rest := by
          simp [candidateCount, List.countP_cons, hc2]
        have hn2 : n + 1 ≤ candidateCount rest := by omega
        have hrec := ih (n + 1) hn2
        simp only [forceHeldCount]
        rw [if_neg hc]
        simp only [heldCount, List.countP_cons] at hrec ⊢
        omega

/-- Every row of the forced table is either an untouched input row or the
conversion of a candidate input row. -/
theorem forceHeldCount_mem (recs : List Record) :
    ∀ (n : Nat) (q : Record), q ∈ forceHeldCount n recs →
      q ∈ recs ∨ ∃ r₀, r₀ ∈ recs ∧ isConversionCandidate r₀ = true ∧ q = convertToHeld r₀ := by
  induction recs with
  | nil => intro n q h; simp [forceHeldCount] at h
  | cons r rest ih =>
    intro n q h
    cases n with
    | zero => exact Or.inl h
    | succ n =>
      by_cases hc : isConversionCandidate r = true
      · rw [forceHeldCount, if_pos hc] at h
        rcases List.mem_cons.mp h with h1 | h1
        · exact Or.inr ⟨r, List.mem_cons_self r rest, hc, h1⟩
        · rcases ih n q h1 with h2 | ⟨r₀, hr₀, hcand, heq⟩
          · exact Or.inl (List.mem_cons_of_mem r h2)
          · exact Or.inr ⟨r₀, List.mem_cons_of_mem r hr₀, hcand, heq⟩
      · rw [forceHeldCount, if_neg hc] at h
        rcases List.mem_cons.mp h with h1 | h1
        · exact Or.inl (h1 ▸ List.mem_cons_self r rest)
        · rcases ih (n + 1) q h1 with h2 | ⟨r₀, hr₀, hcand, heq⟩
          · exact Or.inl (List.mem_cons_of_mem r h2)
          · exact Or.inr ⟨r₀, List.mem_cons_of_mem r hr₀, hcand, heq⟩

/-- C9 (confirmed): when fewer than 47 rows are `Held in Gaza` and enough
candidates (status `Released`/`Unknown` with absent or empty release date)
exist, find_missing_names.py converts exactly `47 - held` of them, making the
held count exactly 47; every changed row was such a candidate, rewritten to
`Held in Gaza` / `Currently Held Captive` / empty release date. -/
theorem c9_target_count_forcing (recs : List Record)
    (h1 : heldCount recs < 47) (h2 : 47 - heldCount recs ≤ candidateCount recs) :
    heldCount (forceHeldCount (47 - heldCount recs) recs) = 47 ∧
    ∀ q ∈ forceHeldCount (47 - heldCount recs) recs,
      q ∈ recs ∨ ∃ r₀, r₀ ∈ recs ∧ isConversionCandidate r₀ = true ∧ q = convertToHeld r₀ := by
  constructor
  · rw [heldCount_forceHeldCount recs (47 - heldCount recs) h2]
    omega
  · exact forceHeldCount_mem recs (47 - heldCount recs)

set_option maxRecDepth 8000 in
/-- C9 witness: the forcing theorem applied to the concrete 47-row store. -/
theorem c9_target_count_forcing_witness :
    heldCount (forceHeldCount (47 - heldCount c9Store) c9Store) = 47 :=
  (c9_target_count_forcing c9Store (by decide) (by decide)).1

/-! ## C4 — ambiguity handling -/

/-- When no row reaches the threshold score 3, the scan keeps whatever best
it started with. -/
theorem findBestMatchAux_no_update (parts : List (List Char)) (missingName : List Char) :
    ∀ (recs : List Record) (i : Nat) (best : Option Nat) (bestScore : Nat),
      (∀ r ∈ recs, scoreName parts missingName r.hebrewName.data < 3) →
      findBestMatchAux parts missingName recs i best bestScore = best := by
  intro recs
  induction recs with
  | nil => intro i best bestScore _; rfl
  | cons r rest ih =>
    intro i best bestScore h
    have hr := h r (List.mem_cons_self r rest)
    have hrest : ∀ q ∈ rest, scoreName parts missingName q.hebrewName.data < 3 :=
      fun q hq => h q (List.mem_cons_of_mem r hq)
    by_cases hs : r.currentStatus = "Held in Gaza"
    · rw [findBestMatchAux, if_pos hs]
      exact ih (i + 1) best bestScore hrest
    · rw [findBestMatchAux, if_neg hs]
      rw [if_neg (by omega)]
      exact ih (i + 1) best bestScore hrest

/-- C4 counterexample: for the external name `"אב גד"` the two candidate rows
score identically (6 ≥ threshold 3), yet the fuzzy matcher of
find_missing_names.py does not report any ambiguity: it returns the first
row, whose fields the script then rewrites to `Held in Gaza`. -/
theorem c4_counterexample :
    scoreName (splitWs "אב גד".data) "אב גד".data tieRowA.hebrewName.data =
      scoreName (splitWs "אב גד".data) "אב גד".data tieRowB.hebrewName.data ∧
    3 ≤ scoreName (splitWs "אב גד".data) "אב גד".data tieRowA.hebrewName.data ∧
    findBestMatch [tieRowA, tieRowB] "אב גד" = some 0 ∧
    (convertToHeld tieRowA).currentStatus = "Held in Gaza" := by decide

/-- C4 (amended): when every row scores below the fixed threshold 3, the
adapter proposes nothing (`best_match` stays `None`); but uniqueness is not
required — among multiple equally-scored candidates at or above the
threshold the scan silently keeps the first-encountered row and the script
applies the `Held in Gaza` conversion to it, and no ambiguity is reported
anywhere (no `AmbiguousMatchError` exists in the source). -/
theorem c4_threshold_and_tie :
    (∀ (recs : List Record) (missingName : String),
      (∀ r ∈ recs, scoreName (splitWs missingName.data) missingName.data r.hebrewName.data < 3) →
      findBestMatch recs missingName = none) ∧
    findBestMatch [tieRowA, tieRowB] "אב גד" = some 0 := by
  constructor
  · intro recs missingName h
    exact findBestMatchAux_no_update (splitWs missingName.data) missingName.data recs 0 none 0 h
  · decide

/-- C4 witness: the below-threshold half of `c4_threshold_and_tie` applied to
a concrete store and name that reach score 2 only. -/
theorem c4_threshold_and_tie_witness : findBestMatch [tieRowA] "xyz" = none :=
  c4_threshold_and_tie.1 [tieRowA] "xyz" (by decide)

/-! ## C5 — status/field coherence -/

/-- C5 counterexample: the validated import writes a release date onto a
record whose status stays `Held in Gaza`, so the coherence invariant does not
hold after every operation — the store it produces is exactly what
check_data_consistency.py then flags. -/
theorem c5_counterexample :
    (importRow [archiveDateRow] heldNoData).currentStatus = "Held in Gaza" ∧
    (importRow [archiveDateRow] heldNoData).releaseDate = some "2024-06-08" ∧
    checkRecord (importRow [archiveDateRow] heldNoData) =
      ["Held in Gaza but has release date"] := by decide

/-- C5 (amended): the operations do not enforce status/field coherence (see
the counterexample); instead check_data_consistency.py reports, per record,
exactly the violations present, each with its specific rule text: a
`Held in Gaza` row is flagged iff its release date is set, and a `Released`
row is flagged iff its release date (resp. circumstances) is missing; a
`Deceased - Returned` row is flagged iff its death context (resp. return
date) is missing. -/
theorem c5_checker_characterization (r : Record) :
    ("Held in Gaza but has release date" ∈ checkRecord r ↔
      (r.currentStatus = "Held in Gaza" ∧
        ¬(strField r.releaseDate = "nan" ∨ strField r.releaseDate = ""))) ∧
    ("Released but no release date" ∈ checkRecord r ↔
      (r.currentStatus = "Released" ∧
        (strField r.releaseDate = "nan" ∨ strField r.releaseDate = ""))) ∧
    ("Released but no release circumstances" ∈ checkRecord r ↔
      (r.currentStatus = "Released" ∧
        (strField r.releaseCircumstances = "nan" ∨ strField r.releaseCircumstances = ""))) ∧
    ("Deceased-Returned but no death context" ∈ checkRecord r ↔
      (r.currentStatus = "Deceased - Returned" ∧
        (strField r.contextOfDeath = "nan" ∨ strField r.contextOfDeath = ""))) ∧
    ("Deceased-Returned but no return date" ∈ checkRecord r ↔
      (r.currentStatus = "Deceased - Returned" ∧
        (strField r.releaseDate = "nan" ∨ strField r.releaseDate = ""))) := by
  unfold checkRecord
  split_ifs <;> simp_all

/-! ## C3 — date validation -/

/-- `digitCh` produces digit characters on `0..9`. -/
theorem isDigitCh_digitCh (k : Nat) (h : k < 10) : isDigitCh (digitCh k) = true := by
  interval_cases k <;> decide

/-- `digitVal` inverts `digitCh` on `0..9`. -/
theorem digitVal_digitCh (k : Nat) (h : k < 10) : digitVal (digitCh k) = k := by
  interval_cases k <;> decide

/-- A `%d/%m/%Y` parse only returns constructor-valid dates. -/
theorem parse_dmY_slash_valid {l : List Char} {y m d : Nat}
    (h : parse_dmY_slash l = some (y, m, d)) : validYMD y m d = true := by
  unfold parse_dmY_slash at h
  repeat' split at h
  all_goals simp_all

/-- A `%m/%d/%Y` parse only returns constructor-valid dates. -/
theorem parse_mdY_slash_valid {l : List Char} {y m d : Nat}
    (h : parse_mdY_slash l = some (y, m, d)) : validYMD y m d = true := by
  unfold parse_mdY_slash at h
  repeat' split at h
  all_goals simp_all

/-- A `%Y/%m/%d` parse only returns constructor-valid dates. -/
theorem parse_Ymd_slash_valid {l : List Char} {y m d : Nat}
    (h : parse_Ymd_slash l = some (y, m, d)) : validYMD y m d = true := by
  unfold parse_Ymd_slash at h
  repeat' split at h
  all_goals simp_all

/-- A `%d-%m-%Y` parse only returns constructor-valid dates. -/
theorem parse_dmY_dash_valid {l : List Char} {y m d : Nat}
    (h : parse_dmY_dash l = some (y, m, d)) : validYMD y m d = true := by
  unfold parse_dmY_dash at h
  repeat' split at h
  all_goals simp_all

/-- Formatting a constructor-valid date yields a valid normalized string. -/
theorem fmtYMD_dateOk (y m d : Nat) (h : validYMD y m d = true) :
    dateOk (fmtYMD y m d).data = true := by
  have hb : (1 ≤ y ∧ y ≤ 9999) ∧ (1 ≤ m ∧ m ≤ 12) ∧ 1 ≤ d ∧ d ≤ daysInMonth y m := by
    simpa [validYMD, Bool.and_eq_true, decide_eq_true_iff, and_assoc] using h
  have h31 : daysInMonth y m ≤ 31 := by unfold daysInMonth; split_ifs <;> omega
  have hy : y ≤ 9999 := hb.1.2
  have hm : m ≤ 12 := hb.2.1.2
  have hd : d ≤ 31 := by omega
  have hdata : (fmtYMD y m d).data =
      [digitCh (y / 1000), digitCh (y / 100 % 10), digitCh (y / 10 % 10), digitCh (y % 10),
       '-', digitCh (m / 10), digitCh (m % 10), '-', digitCh (d / 10), digitCh (d % 10)] := by
    simp [fmtYMD, pad4, pad2]
  rw [hdata]
  unfold dateOk
  rw [Bool.and_eq_true]
  constructor
  · unfold fastPathShape
    simp only [isDigitCh_digitCh (y / 1000) (by omega), isDigitCh_digitCh (y / 100 % 10) (by omega),
      isDigitCh_digitCh (y / 10 % 10) (by omega), isDigitCh_digitCh (y % 10) (by omega),
      isDigitCh_digitCh (m / 10) (by omega), isDigitCh_digitCh (m % 10) (by omega),
      isDigitCh_digitCh (d / 10) (by omega), isDigitCh_digitCh (d % 10) (by omega)]
    simp
  · show validYMD
        (1000 * digitVal (digitCh (y / 1000)) + 100 * digitVal (digitCh (y / 100 % 10)) +
          10 * digitVal (digitCh (y / 10 % 10)) + digitVal (digitCh (y % 10)))
        (10 * digitVal (digitCh (m / 10)) + digitVal (digitCh (m % 10)))
        (10 * digitVal (digitCh (d / 10)) + digitVal (digitCh (d % 10))) = true
    rw [digitVal_digitCh (y / 1000) (by omega), digitVal_digitCh (y / 100 % 10) (by omega),
      digitVal_digitCh (y / 10 % 10) (by omega), digitVal_digitCh (y % 10) (by omega),
      digitVal_digitCh (m / 10) (by omega), digitVal_digitCh (m % 10) (by omega),
      digitVal_digitCh (d / 10) (by omega), digitVal_digitCh (d % 10) (by omega)]
    have e1 : 1000 * (y / 1000) + 100 * (y / 100 % 10) + 10 * (y / 10 % 10) + y % 10 = y := by
      omega
    have e2 : 10 * (m / 10) + m % 10 = m := by omega
    have e3 : 10 * (d / 10) + d % 10 = d := by omega
    rw [e1, e2, e3]
    exact h

/-- C3 counterexample: `validate_date_format` accepts `"01/01/1900"`, a date
more than a century before the earliest possible kidnapping date, so no
plausible-historical-window check exists. -/
theorem c3_counterexample :
    validate_date_format (some "01/01/1900") = some "1900-01-01" ∧
    listLtB ("1900-01-01" : String).data specEarliestKidnappingDate.data = true := by
  exact ⟨by decide, by decide⟩

/-- C3 (amended): a proposed date is accepted only if it parses, under the
`YYYY-MM-DD` fast path or one of the four listed formats, as a calendar date
the `datetime` constructor accepts, and the accepted value is normalized
`YYYY-MM-DD`; the concrete proposal `"31/02/2024"` is rejected (`None`).  No
historical-window check is performed (see the counterexample). -/
theorem c3_date_validation :
    validate_date_format (some "31/02/2024") = none ∧
    (∀ (x : Option String) (d : String), validate_date_format x = some d → dateOk d.data = true) := by
  refine ⟨by decide, ?_⟩
  intro x d h
  match x with
  | none => simp [validate_date_format] at h
  | some s0 =>
    unfold validate_date_format at h
    simp only at h
    split_ifs at h with h1 h2 h3 h4
    · rw [Option.some.injEq] at h
      subst h
      unfold dateOk
      rw [h3, h4]
      rfl
    · split at h
      · rw [Option.some.injEq] at h
        subst h
        exact fmtYMD_dateOk _ _ _ (parse_dmY_slash_valid (by assumption))
      · split at h
        · rw [Option.some.injEq] at h
          subst h
          exact fmtYMD_dateOk _ _ _ (parse_mdY_slash_valid (by assumption))
        · split at h
          · rw [Option.some.injEq] at h
            subst h
            exact fmtYMD_dateOk _ _ _ (parse_Ymd_slash_valid (by assumption))
          · split at h
            · rw [Option.some.injEq] at h
              subst h
              exact fmtYMD_dateOk _ _ _ (parse_dmY_dash_valid (by assumption))
            · simp at h

/-- C3 witness: the soundness half of `c3_date_validation` applied to a
concrete accepted date. -/
theorem c3_date_validation_witness : dateOk ("2024-06-05" : String).data = true :=
  c3_date_validation.2 (some "05/06/2024") "2024-06-05" (by decide)

/-! ## C10 — format order and day-first disambiguation -/

/-- A successful literal-character step exposes the head of its input. -/
theorem expectCh_eq {c : Char} {l rest : List Char} (h : expectCh c l = some rest) :
    l = c :: rest := by
  unfold expectCh at h
  split at h
  · rename_i x xs
    split_ifs at h with hx
    rw [Option.some.injEq] at h
    rw [hx, h]
  · simp at h

/-- `parseD` consumes one or two leading characters. -/
theorem parseD_rest {l : List Char} {v : Nat} {rest : List Char}
    (h : parseD l = some (v, rest)) :
    (∃ a, l = a :: rest) ∨ ∃ a b, l = a :: b :: rest := by
  unfold parseD at h
  split at h
  · rename_i a b l0
    split_ifs at h <;> simp only [Option.some.injEq, Prod.mk.injEq] at h
    · exact Or.inr ⟨a, b, by rw [← h.2]⟩
    · exact Or.inr ⟨a, b, by rw [← h.2]⟩
    · exact Or.inr ⟨a, b, by rw [← h.2]⟩
    · exact Or.inl ⟨a, by rw [← h.2]⟩
  · rename_i a
    split_ifs at h
    simp only [Option.some.injEq, Prod.mk.injEq] at h
    exact Or.inl ⟨a, by rw [← h.2]⟩
  · simp at h

/-- `parseM` consumes one or two leading characters. -/
theorem parseM_rest {l : List Char} {v : Nat} {rest : List Char}
    (h : parseM l = some (v, rest)) :
    (∃ a, l = a :: rest) ∨ ∃ a b, l = a :: b :: rest := by
  unfold parseM at h
  split at h
  · rename_i a b l0
    split_ifs at h <;> simp only [Option.some.injEq, Prod.mk.injEq] at h
    · exact Or.inr ⟨a, b, by rw [← h.2]⟩
    · exact Or.inr ⟨a, b, by rw [← h.2]⟩
    · exact Or.inl ⟨a, by rw [← h.2]⟩
  · rename_i a
    split_ifs at h
    simp only [Option.some.injEq, Prod.mk.injEq] at h
    exact Or.inl ⟨a, by rw [← h.2]⟩
  · simp at h

/-- `parseY4` consumes exactly four leading characters. -/
theorem parseY4_rest {l : List Char} {v : Nat} {rest : List Char}
    (h : parseY4 l = some (v, rest)) :
    ∃ a b c d, l = a :: b :: c :: d :: rest := by
  unfold parseY4 at h
  split at h
  · rename_i a b c d l0
    split_ifs at h
    simp only [Option.some.injEq, Prod.mk.injEq] at h
    exact ⟨a, b, c, d, by rw [← h.2]⟩
  · simp at h

/-- A successful `%d/%m/%Y` parse means the input contains a slash. -/
theorem parse_dmY_slash_has_slash {l : List Char} {p : Nat × Nat × Nat}
    (h : parse_dmY_slash l = some p) : '/' ∈ l := by
  unfold parse_dmY_slash at h
  split at h
  · simp at h
  · rename_i d l1 hd
    split at h
    · simp at h
    · rename_i l2 hsl
      have h1 : l1 = '/' :: l2 := expectCh_eq hsl
      rcases parseD_rest hd with ⟨a, ha⟩ | ⟨a, b, hab⟩
      · rw [ha, h1]; simp
      · rw [hab, h1]; simp

/-- A successful `%m/%d/%Y` parse means the input contains a slash. -/
theorem parse_mdY_slash_has_slash {l : List Char} {p : Nat × Nat × Nat}
    (h : parse_mdY_slash l = some p) : '/' ∈ l := by
  unfold parse_mdY_slash at h
  split at h
  · simp at h
  · rename_i m l1 hm
    split at h
    · simp at h
    · rename_i l2 hsl
      have h1 : l1 = '/' :: l2 := expectCh_eq hsl
      rcases parseM_rest hm with ⟨a, ha⟩ | ⟨a, b, hab⟩
      · rw [ha, h1]; simp
      · rw [hab, h1]; simp

/-- A successful `%Y/%m/%d` parse means the input contains a slash. -/
theorem parse_Ymd_slash_has_slash {l : List Char} {p : Nat × Nat × Nat}
    (h : parse_Ymd_slash l = some p) : '/' ∈ l := by
  unfold parse_Ymd_slash at h
  split at h
  · simp at h
  · rename_i y l1 hy
    split at h
    · simp at h
    · rename_i l2 hsl
      have h1 : l1 = '/' :: l2 := expectCh_eq hsl
      rcases parseY4_rest hy with ⟨a, b, c, d, habcd⟩
      rw [habcd, h1]; simp

/-- Every character of a fast-path-shaped string is a digit or a dash. -/
theorem fastPathShape_chars {l : List Char} (h : fastPathShape l = true) :
    ∀ c ∈ l, isDigitCh c = true ∨ c = '-' := by
  unfold fastPathShape at h
  split at h
  · rename_i a b c d e f g hh i j
    simp only [Bool.and_eq_true, decide_eq_true_iff] at h
    intro x hx
    simp only [List.mem_cons, List.not_mem_nil, or_false] at hx
    rcases hx with rfl | rfl | rfl | rfl | rfl | rfl | rfl | rfl | rfl | rfl <;> tauto
  · simp at h

/-- A fast-path-shaped string contains no slash. -/
theorem fastPathShape_no_slash {l : List Char} (h : fastPathShape l = true) : '/' ∉ l := by
  intro hsl
  rcases fastPathShape_chars h '/' hsl with hd | hd
  · exact absurd hd (by decide)
  · exact absurd hd (by decide)

/-- The second and third characters of a fast-path-shaped string are digits. -/
theorem fastPathShape_second_third {l : List Char} (h : fastPathShape l = true) :
    ∃ a b c rest, l = a :: b :: c :: rest ∧ isDigitCh b = true ∧ isDigitCh c = true := by
  unfold fastPathShape at h
  split at h
  · rename_i a b c d e f g hh i j
    simp only [Bool.and_eq_true, decide_eq_true_iff] at h
    exact ⟨a, b, c, [d, e, f, g, hh, i, j], rfl, h.1.1.1.1.1.1.1.1.2, h.1.1.1.1.1.1.1.2⟩
  · simp at h

/-- On a fast-path-shaped string the `%d/%m/%Y` format fails. -/
theorem fastPathShape_no_dmY_slash {l : List Char} (h : fastPathShape l = true) :
    parse_dmY_slash l = none := by
  cases hp : parse_dmY_slash l with
  | none => rfl
  | some p => exact absurd (parse_dmY_slash_has_slash hp) (fastPathShape_no_slash h)

/-- On a fast-path-shaped string the `%m/%d/%Y` format fails. -/
theorem fastPathShape_no_mdY_slash {l : List Char} (h : fastPathShape l = true) :
    parse_mdY_slash l = none := by
  cases hp : parse_mdY_slash l with
  | none => rfl
  | some p => exact absurd (parse_mdY_slash_has_slash hp) (fastPathShape_no_slash h)

/-- On a fast-path-shaped string the `%Y/%m/%d` format fails. -/
theorem fastPathShape_no_Ymd_slash {l : List Char} (h : fastPathShape l = true) :
    parse_Ymd_slash l = none := by
  cases hp : parse_Ymd_slash l with
  | none => rfl
  | some p => exact absurd (parse_Ymd_slash_has_slash hp) (fastPathShape_no_slash h)

/-- On a fast-path-shaped string the `%d-%m-%Y` format fails as well: the day
regex consumes one or two leading digits and then requires a dash, but the
second and third characters are digits. -/
theorem fastPathShape_no_dmY_dash {l : List Char} (h : fastPathShape l = true) :
    parse_dmY_dash l = none := by
  cases hp : parse_dmY_dash l with
  | none => rfl
  | some p =>
    exfalso
    unfold parse_dmY_dash at hp
    split at hp
    · simp at hp
    · rename_i d l1 hd
      split at hp
      · simp at hp
      · rename_i l2 hsl
        have h1 : l1 = '-' :: l2 := expectCh_eq hsl
        obtain ⟨a, b, c, rest0, hl, hb, hc⟩ := fastPathShape_second_third h
        rcases parseD_rest hd with ⟨x, hx⟩ | ⟨x, y, hxy⟩
        · rw [hl, h1] at hx
          simp only [List.cons.injEq] at hx
          rw [hx.2.1] at hb
          exact absurd hb (by decide)
        · rw [hl, h1] at hxy
          simp only [List.cons.injEq] at hxy
          rw [hxy.2.2.1] at hc
          exact absurd hc (by decide)

/-- C10 counterexample: `"2024-10-07"` is accepted by `validate_date_format`
through the initial `YYYY-MM-DD` branch even though none of the four listed
formats parses it, so "returns `None` exactly when no listed format parses
the input" is false as stated. -/
theorem c10_counterexample :
    validate_date_format (some "2024-10-07") = some "2024-10-07" ∧
    parse_dmY_slash ("2024-10-07" : String).data = none ∧
    parse_mdY_slash ("2024-10-07" : String).data = none ∧
    parse_Ymd_slash ("2024-10-07" : String).data = none ∧
    parse_dmY_dash ("2024-10-07" : String).data = none := by decide

/-- C10 (amended): (a) the formats are tried in the fixed order with
`%d/%m/%Y` first, so whenever the day-first format parses the (stripped,
non-`"nan"`, non-fast-path) input as a constructor-valid date — in
particular for every slash-delimited input valid under both day-first and
month-first readings — the function returns the day-first interpretation
normalized to `YYYY-MM-DD`; (b) it returns `None` exactly when neither the
initial `YYYY-MM-DD` branch accepts the input nor any of the four listed
formats parses it as a valid date. -/
theorem c10_dayfirst_and_none_iff :
    (∀ (s : String) (y m d : Nat), s ≠ "nan" → pyStrip s.data = s.data →
      parse_dmY_slash s.data = some (y, m, d) →
      validate_date_format (some s) = some (fmtYMD y m d)) ∧
    (∀ s : String, s ≠ "nan" → pyStrip s.data = s.data → s.data ≠ [] →
      (validate_date_format (some s) = none ↔
        ((fastPathShape s.data && fastOk s.data) = false ∧
         parse_dmY_slash s.data = none ∧ parse_mdY_slash s.data = none ∧
         parse_Ymd_slash s.data = none ∧ parse_dmY_dash s.data = none))) := by
  constructor
  · intro s y m d hnan hstrip hp
    have hshape : fastPathShape s.data = false := by
      cases hsh : fastPathShape s.data with
      | false => rfl
      | true =>
        rw [fastPathShape_no_dmY_slash hsh] at hp
        exact absurd hp (by simp)
    have hne : s.data ≠ [] := by
      intro h0
      rw [h0] at hp
      simp [parse_dmY_slash, parseD] at hp
    simp only [validate_date_format]
    rw [hstrip]
    rw [if_neg hnan, if_neg hne, if_neg (by rw [hshape]; simp), hp]
  · intro s hnan hstrip hne
    simp only [validate_date_format]
    rw [hstrip]
    rw [if_neg hnan, if_neg hne]
    by_cases hsh : fastPathShape s.data = true
    · rw [if_pos hsh]
      have hn1 := fastPathShape_no_dmY_slash hsh
      have hn2 := fastPathShape_no_mdY_slash hsh
      have hn3 := fastPathShape_no_Ymd_slash hsh
      have hn4 := fastPathShape_no_dmY_dash hsh
      by_cases hok : fastOk s.data = true
      · rw [if_pos hok]
        simp [hsh, hok, hn1, hn2, hn3, hn4]
      · rw [if_neg hok]
        simp only [Bool.not_eq_true] at hok
        simp [hsh, hok, hn1, hn2, hn3, hn4]
    · rw [if_neg hsh]
      simp only [Bool.not_eq_true] at hsh
      rcases h1 : parse_dmY_slash s.data with _ | p1
      · rcases h2 : parse_mdY_slash s.data with _ | p2
        · rcases h3 : parse_Ymd_slash s.data with _ | p3
          · rcases h4 : parse_dmY_dash s.data with _ | p4
            · simp [h1, h2, h3, h4, hsh]
            · obtain ⟨y4, m4, d4⟩ := p4
              simp [h1, h2, h3, h4]
          · obtain ⟨y3, m3, d3⟩ := p3
            simp [h1, h2, h3]
        · obtain ⟨y2, m2, d2⟩ := p2
          simp [h1, h2]
      · obtain ⟨y1, m1, d1⟩ := p1
        simp [h1]

/-- C10 witness: the amended theorem applied to `"05/06/2024"` (valid under
both readings, day-first wins) and to `"31/02/2024"` (no branch parses it). -/
theorem c10_dayfirst_and_none_iff_witness :
    validate_date_format (some "05/06/2024") = some (fmtYMD 2024 6 5) ∧
    validate_date_format (some "31/02/2024") = none :=
  ⟨c10_dayfirst_and_none_iff.1 "05/06/2024" 2024 6 5 (by decide) (by decide) (by decide),
   (c10_dayfirst_and_none_iff.2 "31/02/2024" (by decide) (by decide) (by decide)).mpr
     ⟨by decide, by decide, by decide, by decide, by decide⟩⟩

/-! ## C2 — idempotence -/

/-- `splitAtColon` splits the list around its first colon. -/
theorem splitAtColon_eq :
    ∀ {l pre post : List Char}, splitAtColon l = some (pre, post) → l = pre ++ ':' :: post := by
  intro l
  induction l with
  | nil => intro pre post h; simp [splitAtColon] at h
  | cons c rest ih =>
    intro pre post h
    unfold splitAtColon at h
    split_ifs at h with hc
    · simp only [Option.some.injEq, Prod.mk.injEq] at h
      rw [← h.1, ← h.2, hc]
      rfl
    · cases hpq : splitAtColon rest with
      | none => rw [hpq] at h; simp at h
      | some pq =>
        obtain ⟨p2, q2⟩ := pq
        rw [hpq] at h
        simp only [Option.map_some', Option.some.injEq, Prod.mk.injEq] at h
        rw [← h.1, ← h.2]
        simp [ih hpq]

/-- A URL with a scheme and netloc contains a colon. -/
theorem hasSchemeNetloc_colon {l : List Char} (h : hasSchemeNetloc l = true) : ':' ∈ l := by
  cases heq : splitAtColon l with
  | none =>
    unfold hasSchemeNetloc at h
    rw [heq] at h
    simp at h
  | some pq =>
    obtain ⟨pre, post⟩ := pq
    rw [splitAtColon_eq heq]
    simp

/-- Stripping only removes characters. -/
theorem pyStrip_subset {l : List Char} {x : Char} (h : x ∈ pyStrip l) : x ∈ l := by
  unfold pyStrip at h
  have h1 := List.mem_reverse.mp h
  have h2 := (List.dropWhile_sublist Char.isWhitespace).subset h1
  have h3 := List.mem_reverse.mp h2
  exact (List.dropWhile_sublist Char.isWhitespace).subset h3

/-- A URL accepted by `validate_url` contains a colon. -/
theorem validate_url_colon {u : List Char} (h : validate_url (String.mk u) = true) : ':' ∈ u := by
  unfold validate_url at h
  simp only at h
  split_ifs at h with h1
  rw [Bool.and_eq_true] at h
  exact pyStrip_subset (hasSchemeNetloc_colon h.1)

/-- Every joined URL is a substring of the joined list. -/
theorem mem_joinSemi :
    ∀ (lst : List (List Char)) (u : List Char), u ∈ lst → u <:+: joinSemi lst := by
  intro lst
  induction lst with
  | nil => intro u hu; simp at hu
  | cons w rest ih =>
    intro u hu
    rcases List.mem_cons.mp hu with rfl | hmem
    · cases rest with
      | nil => exact List.infix_refl u
      | cons r2 rest2 => exact (List.prefix_append u _).isInfix
    · cases rest with
      | nil => simp at hmem
      | cons r2 rest2 =>
        have h1 := ih u hmem
        have h2 : joinSemi (r2 :: rest2) <:+: joinSemi (w :: r2 :: rest2) := by
          show joinSemi (r2 :: rest2) <:+: w ++ ';' :: ' ' :: joinSemi (r2 :: rest2)
          have he : w ++ ';' :: ' ' :: joinSemi (r2 :: rest2) =
              (w ++ [';', ' ']) ++ joinSemi (r2 :: rest2) := by simp
          rw [he]
          exact (List.suffix_append _ _).isInfix
        exact h1.trans h2

/-- Re-running the citation expansion on its own output proposes nothing:
every URL it could propose is already a substring of the updated cell. -/
theorem mergeCitations_idem (cur archive v : List Char)
    (h : mergeCitations cur archive = some v) :
    mergeCitations v archive = none := by
  unfold mergeCitations at h ⊢
  by_cases hg : archive ≠ [] ∧ archive ≠ ("nan" : String).data
  case neg =>
    rw [if_neg hg] at h
    exact absurd h (by simp)
  case pos =>
    rw [if_pos hg] at h ⊢
    by_cases hne : collectNewUrls cur ((splitSemi archive).map pyStrip) = []
    · rw [if_pos hne] at h
      exact absurd h (by simp)
    · rw [if_neg hne] at h
      have hmain :
          ∀ u ∈ (splitSemi archive).map pyStrip,
            validate_url (String.mk u) = true → u <:+: v := by
        by_cases hc : cur ≠ [] ∧ cur ≠ ("nan" : String).data
        · rw [if_pos hc] at h
          have hv : v = cur ++ ';' :: ' ' ::
              joinSemi (collectNewUrls cur ((splitSemi archive).map pyStrip)) :=
            (Option.some.inj h).symm
          intro u hu hval
          by_cases hin : u <:+: cur
          · rw [hv]
            exact hin.trans (List.prefix_append cur _).isInfix
          · have hu2 : u ∈ collectNewUrls cur ((splitSemi archive).map pyStrip) := by
              rw [collectNewUrls]
              exact List.mem_filter.mpr ⟨hu, by simp [hval, hin]⟩
            have hj := mem_joinSemi _ u hu2
            rw [hv]
            have he : cur ++ ';' :: ' ' ::
                joinSemi (collectNewUrls cur ((splitSemi archive).map pyStrip)) =
                (cur ++ [';', ' ']) ++
                  joinSemi (collectNewUrls cur ((splitSemi archive).map pyStrip)) := by simp
            rw [he]
            exact hj.trans (List.suffix_append _ _).isInfix
        · rw [if_neg hc] at h
          have hv : v = joinSemi (collectNewUrls cur ((splitSemi archive).map pyStrip)) :=
            (Option.some.inj h).symm
          have hcur : cur = [] ∨ cur = ("nan" : String).data := by
            by_cases h1 : cur = []
            · exact Or.inl h1
            · right
              by_contra h2
              exact hc ⟨h1, h2⟩
          intro u hu hval
          by_cases hin : u <:+: cur
          · rcases hcur with hcur | hcur
            · rw [hcur] at hin
              have : u = [] := List.eq_nil_of_infix_nil hin
              rw [this] at hval
              exact absurd hval (by decide)
            · have hcolon := validate_url_colon hval
              have : ':' ∈ cur := hin.subset hcolon
              rw [hcur] at this
              exact absurd this (by decide)
          · have hu2 : u ∈ collectNewUrls cur ((splitSemi archive).map pyStrip) := by
              rw [collectNewUrls]
              exact List.mem_filter.mpr ⟨hu, by simp [hval, hin]⟩
            rw [hv]
            exact mem_joinSemi _ u hu2
      have hempty : collectNewUrls v ((splitSemi archive).map pyStrip) = [] := by
        rw [collectNewUrls, List.filter_eq_nil_iff]
        intro u hu
        cases hval : validate_url (String.mk u) with
        | false => simp [hval]
        | true => simp [hval, hmain u hu hval]
      rw [if_pos hempty]

/-- A guarded empty-only field update is idempotent. -/
theorem updField_idem (cur vp : Option String) :
    updField (updField cur (if isEmptyField cur then vp else none))
      (if isEmptyField (updField cur (if isEmptyField cur then vp else none)) then vp else none) =
    updField cur (if isEmptyField cur then vp else none) := by
  by_cases he : isEmptyField cur = true
  · rw [if_pos he]
    cases vp with
    | none => simp [updField, he]
    | some v =>
      by_cases hv : isEmptyField (some v) = true
      · simp [updField, hv]
      · simp [updField, hv]
  · rw [if_neg he]
    simp [updField, he]

/-- The citation-cell update is idempotent. -/
theorem citField_idem (cur : Option String) (arch : List Char) :
    updField (updField cur ((mergeCitations (strField cur).data arch).map String.mk))
      ((mergeCitations
        (strField (updField cur ((mergeCitations (strField cur).data arch).map String.mk))).data
        arch).map String.mk) =
    updField cur ((mergeCitations (strField cur).data arch).map String.mk) := by
  cases hm : mergeCitations (strField cur).data arch with
  | none => simp [updField, hm]
  | some v =>
    have h2 : mergeCitations v arch = none := mergeCitations_idem _ _ v hm
    simp [updField, hm, strField, h2]

/-- One matched-row import step is idempotent. -/
theorem importWithArchiveRow_idem (a : ArchiveRow) (r : Record) :
    importWithArchiveRow a (importWithArchiveRow a r) = importWithArchiveRow a r := by
  unfold importWithArchiveRow
  simp only [Record.mk.injEq]
  refine ⟨trivial, trivial, ?_, ?_, ?_, ?_, ?_, ?_, trivial, trivial, trivial⟩
  · exact updField_idem r.dateOfDeath (validate_date_format a.dateOfDeath)
  · exact updField_idem r.contextOfDeath (validate_circumstances_category a.contextOfDeath)
  · exact updField_idem r.releaseDate (validate_date_format a.releaseDate)
  · exact updField_idem r.releaseCircumstances
      (validate_circumstances_category a.releaseCircumstances)
  · exact citField_idem r.citationUrls (strField a.citationUrls).data
  · exact updField_idem r.countriesInvolved (countriesProposal a.countriesInvolved)

set_option maxRecDepth 4000 in
/-- C2 counterexample: after one run of the extraction, the example record's
release date is still empty; the second run fills it with `2023-11-24`, so
the second pipeline run changes the canonical store and the output is not
byte-identical to the first run's. -/
theorem c2_counterexample :
    (extractRow extractTwiceExample).dateOfDeath = some "2023-10-07" ∧
    (extractRow extractTwiceExample).releaseDate = none ∧
    (extractRow (extractRow extractTwiceExample)).releaseDate = some "2023-11-24" := by decide

set_option maxRecDepth 4000 in
/-- C2 (amended): the validated archive import is idempotent — re-running
`importRow` on its own output changes no record, for any archive — but the
comprehensive extraction step is not: because the per-row `updated` flag
suppresses the release-phrase patterns once an earlier field was extracted,
a second run over the same store can still change it (see the
counterexample), so the full pipeline is not idempotent. -/
theorem c2_import_idempotent_extraction_not :
    (∀ (archive : List ArchiveRow) (r : Record),
      importRow archive (importRow archive r) = importRow archive r) ∧
    extractRow (extractRow extractTwiceExample) ≠ extractRow extractTwiceExample := by
  constructor
  · intro archive r
    cases hm : findArchiveMatches archive r.hebrewName with
    | nil =>
      have h1 : importRow archive r = r := by
        simp only [importRow, hm]
      rw [h1, h1]
    | cons a rest =>
      have h1 : importRow archive r = importWithArchiveRow a r := by
        simp only [importRow, hm]
      have hname : (importWithArchiveRow a r).hebrewName = r.hebrewName := rfl
      have h2 : importRow archive (importWithArchiveRow a r) =
          importWithArchiveRow a (importWithArchiveRow a r) := by
        simp only [importRow, hname, hm]
      rw [h1, h2]
      exact importWithArchiveRow_idem a r
  · decide
